import Mathlib

/-!
Verification of a glTF utility library: typed strided accessor decoding,
mesh loading and dumping, 4x4 transform algebra and scene-graph
transform composition.  Definitions are a shallow embedding of the
Python source (scripts/utils.py); integer arithmetic is exact, and the
floating-point values of the source are idealised as rationals (for the
decoded buffer data, via the exact semantics of IEEE-754 binary32) and
as real numbers (for the transform engine).
-/

/-! ## Element and component types -/

inductive ElementType where
  | SCALAR | VEC2 | VEC3 | VEC4 | MAT2 | MAT3 | MAT4
  deriving DecidableEq

def NUM_COMPONENTS : ElementType → Nat
  | .SCALAR => 1
  | .VEC2 => 2
  | .VEC3 => 3
  | .VEC4 => 4
  | .MAT2 => 4
  | .MAT3 => 9
  | .MAT4 => 16

inductive ComponentType where
  | BYTE | UNSIGNED_BYTE | SHORT | UNSIGNED_SHORT | UNSIGNED_INT | FLOAT
  deriving DecidableEq

def COMPONENT_SIZE : ComponentType → Nat
  | .BYTE => 1
  | .UNSIGNED_BYTE => 1
  | .SHORT => 2
  | .UNSIGNED_SHORT => 2
  | .UNSIGNED_INT => 4
  | .FLOAT => 4

/-! ## Little-endian byte decoding (semantics of struct.unpack) -/

/-- Little-endian value of a byte list: byte 0 is least significant. -/
def leNat : List Nat → Nat
  | [] => 0
  | b :: bs => b + 256 * leNat bs

/-- Two's-complement reading of an unsigned `w`-bit value. -/
def toSigned (w : Nat) (u : Nat) : Int :=
  if u < 2 ^ (w - 1) then (u : Int) else (u : Int) - 2 ^ w

/-- Exact value of an IEEE-754 binary32 bit pattern: NaN, a signed
infinity, or a rational (subnormals included). -/
inductive FloatVal where
  | nan
  | inf (neg : Bool)
  | finite (q : ℚ)
  deriving DecidableEq

def float32OfBits (b : Nat) : FloatVal :=
  let s : Bool := b / 2 ^ 31 % 2 == 1
  let e : Nat := b / 2 ^ 23 % 2 ^ 8
  let m : Nat := b % 2 ^ 23
  if e = 255 then (if m = 0 then .inf s else .nan)
  else
    let sign : ℚ := if s then -1 else 1
    if e = 0 then .finite (sign * (m : ℚ) / 2 ^ 149)
    else .finite (sign * (((2 ^ 23 + m : ℕ) : ℚ) * 2 ^ e / 2 ^ 150))

/-- A decoded numeric component: the integer component types decode to
exact integers, FLOAT decodes to the exact value of the binary32 word. -/
inductive Value where
  | int (z : ℤ)
  | float (v : FloatVal)
  deriving DecidableEq

/-- The per-component-type decode functions (struct.unpack with formats
b, B, h, H, I, f: exact-length little-endian reads). -/
def COMPONENT_PARSERS (c : ComponentType) (bs : List Nat) : Option Value :=
  if bs.length = COMPONENT_SIZE c then
    match c with
    | .BYTE => some (.int (toSigned 8 (leNat bs)))
    | .UNSIGNED_BYTE => some (.int (leNat bs))
    | .SHORT => some (.int (toSigned 16 (leNat bs)))
    | .UNSIGNED_SHORT => some (.int (leNat bs))
    | .UNSIGNED_INT => some (.int (leNat bs))
    | .FLOAT => some (.float (float32OfBits (leNat bs)))
  else none

/-- A decoded element: a single-component element is the bare scalar, a
multi-component element is the ordered list of its components. -/
inductive Element where
  | scalar (v : Value)
  | vec (vs : List Value)
  deriving DecidableEq

/-! ## Accessor decoding -/

structure Accessor where
  bufferView : Nat
  byteOffset : Option Nat
  type : ElementType
  componentType : ComponentType
  count : Nat
  deriving DecidableEq

structure BufferView where
  buffer : Nat
  byteOffset : Option Nat
  byteLength : Nat
  byteStride : Option Nat
  deriving DecidableEq

/-- Python list slice `l[a:b]` for 0 ≤ a ≤ b (truncating at the end). -/
def pySlice (l : List Nat) (a b : Nat) : List Nat :=
  (l.drop a).take (b - a)

/-- The element-building loop: indices 0, 1, ... are decoded in order and
appended; the first failure aborts. -/
def buildList {α : Type} (f : Nat → Option α) : Nat → Option (List α)
  | 0 => some []
  | n + 1 =>
    match buildList f n, f n with
    | some xs, some x => some (xs ++ [x])
    | _, _ => none

def parse_element_data (element_type : ElementType) (component_type : ComponentType)
    (element_buffer : List Nat) : Option Element :=
  let num_components := NUM_COMPONENTS element_type
  let component_size := COMPONENT_SIZE component_type
  if num_components = 1 then
    (COMPONENT_PARSERS component_type element_buffer).map Element.scalar
  else
    (buildList (fun i =>
      COMPONENT_PARSERS component_type
        (pySlice element_buffer (i * component_size) (i * component_size + component_size)))
      num_components).map Element.vec

structure SceneData where
  nodes : List Nat
  deriving DecidableEq

structure NodeData where
  matrix : Option (List ℝ)
  scale : Option (ℝ × ℝ × ℝ)
  rotation : Option (ℝ × ℝ × ℝ × ℝ)
  translation : Option (ℝ × ℝ × ℝ)
  children : Option (List Nat)
  mesh : Option Nat

structure Gltf where
  accessors : List Accessor
  bufferViews : List BufferView
  nodes : List NodeData
  scenes : List SceneData
  scene : Nat

def parse_accessor_data (gltf : Gltf) (buffer : List Nat) (accessor_index : Nat) :
    Option (List Element) :=
  match gltf.accessors.get? accessor_index with
  | none => none
  | some accessor =>
    match gltf.bufferViews.get? accessor.bufferView with
    | none => none
    | some view =>
      if view.buffer = 0 then
        let accessor_offset := accessor.byteOffset.getD 0
        let view_offset := view.byteOffset.getD 0
        let buffer_offset := accessor_offset + view_offset
        let num_components := NUM_COMPONENTS accessor.type
        let component_size := COMPONENT_SIZE accessor.componentType
        let element_size := num_components * component_size
        let element_stride := max element_size (view.byteStride.getD 0)
        let element_count := accessor.count
        let required_size : ℤ :=
          (element_stride : ℤ) * ((element_count : ℤ) - 1) + (element_size : ℤ)
        if (accessor_offset : ℤ) + required_size ≤ (view.byteLength : ℤ) then
          buildList (fun i =>
            parse_element_data accessor.type accessor.componentType
              (pySlice buffer (buffer_offset + i * element_stride)
                (buffer_offset + i * element_stride + element_size)))
            element_count
        else none
      else none

/-! ## Mesh loading -/

structure Attributes where
  POSITION : Option Nat
  NORMAL : Option Nat
  TANGENT : Option Nat
  TEXCOORD_0 : Option Nat
  deriving DecidableEq

structure Primitive where
  indices : Option Nat
  attributes : Attributes
  deriving DecidableEq

structure MeshJson where
  primitives : List Primitive
  deriving DecidableEq

structure MeshData where
  indices : List Element
  positions : List Element
  normals : Option (List Element)
  tangents : Option (List Element)
  texcoords : Option (List Element)
  deriving DecidableEq

/-- Decode an optional attribute: absent stays absent, present must
decode successfully. -/
def parseOpt (gltf : Gltf) (buffer : List Nat) : Option Nat → Option (Option (List Element))
  | none => some none
  | some i =>
    match parse_accessor_data gltf buffer i with
    | none => none
    | some xs => some (some xs)

def load_gltf_mesh (gltf : Gltf) (buffer : List Nat) (mesh : MeshJson) :
    Option MeshData :=
  match mesh.primitives with
  | [primitive] =>
    match primitive.indices with
    | none => none
    | some indices_index =>
      match parse_accessor_data gltf buffer indices_index with
      | none => none
      | some indices =>
        match primitive.attributes.POSITION with
        | none => none
        | some position_index =>
          match parse_accessor_data gltf buffer position_index with
          | none => none
          | some positions =>
            match parseOpt gltf buffer primitive.attributes.NORMAL with
            | none => none
            | some normals =>
              match parseOpt gltf buffer primitive.attributes.TANGENT with
              | none => none
              | some tangents =>
                match parseOpt gltf buffer primitive.attributes.TEXCOORD_0 with
                | none => none
                | some texcoords =>
                  if indices.length % 3 = 0 then
                    if [normals, tangents, texcoords].all
                        (fun x => match x with
                          | none => true
                          | some l => l.length == positions.length) then
                      some ⟨indices, positions, normals, tangents, texcoords⟩
                    else none
                  else none
  | _ => none

/-! ## Mesh dumping -/

/-- Round to the nearest integer, ties to even (the rounding used when
formatting a number with a fixed number of decimals). -/
def rne (q : ℚ) : ℤ :=
  let f := ⌊q⌋
  let r := q - f
  if r < 1 / 2 then f
  else if 1 / 2 < r then f + 1
  else if f % 2 = 0 then f else f + 1

/-- Left-pad a string with zeros to 6 characters. -/
def pad6 (s : String) : String :=
  String.mk (List.replicate (6 - s.length) '0') ++ s

/-- Fixed-point rendering of a rational with 6 decimals. -/
def fmtFixed6 (q : ℚ) : String :=
  let n := rne (q * 1000000)
  let sgn := if n < 0 then "-" else ""
  let a := n.natAbs
  sgn ++ toString (a / 1000000) ++ "." ++ pad6 (toString (a % 1000000))

/-- Rendering of a decoded value with 6 fixed decimals. -/
def fmtVal : Value → String
  | .int z => toString z ++ ".000000"
  | .float (.finite q) => fmtFixed6 q
  | .float .nan => "nan"
  | .float (.inf b) => if b then "-inf" else "inf"

def vLine : Element → Option String
  | .vec [x, y, z] => some ("v " ++ fmtVal x ++ " " ++ fmtVal y ++ " " ++ fmtVal z)
  | _ => none

def vtLine : Element → Option String
  | .vec [u, v] => some ("vt " ++ fmtVal u ++ " " ++ fmtVal v)
  | _ => none

def vnLine : Element → Option String
  | .vec [x, y, z] => some ("vn " ++ fmtVal x ++ " " ++ fmtVal y ++ " " ++ fmtVal z)
  | _ => none

def indexOf1 : Element → Option String
  | .scalar (.int z) => some (toString (z + 1))
  | _ => none

/-- The face loop: consumes indices three at a time; a leftover of one or
two indices fails (the destructuring of a short slice). -/
def faceLines : List Element → Option (List String)
  | [] => some []
  | a :: b :: c :: rest =>
    match indexOf1 a, indexOf1 b, indexOf1 c with
    | some sa, some sb, some sc =>
      match faceLines rest with
      | none => none
      | some ls =>
        some (("f " ++ sa ++ "/" ++ sa ++ "/" ++ sa ++ " "
                    ++ sb ++ "/" ++ sb ++ "/" ++ sb ++ " "
                    ++ sc ++ "/" ++ sc ++ "/" ++ sc) :: ls)
    | _, _, _ => none
  | _ => none

def dump_mesh_data (mesh_data : MeshData) : Option String :=
  let positions := mesh_data.positions
  let texcoords := mesh_data.texcoords.getD
    (List.replicate positions.length (.vec [.int 0, .int 0]))
  let normals := mesh_data.normals.getD
    (List.replicate positions.length (.vec [.int 0, .int 0, .int 1]))
  match positions.mapM vLine with
  | none => none
  | some vLines =>
    match texcoords.mapM vtLine with
    | none => none
    | some vtLines =>
      match normals.mapM vnLine with
      | none => none
      | some vnLines =>
        match faceLines mesh_data.indices with
        | none => none
        | some fLines =>
          some (String.intercalate "\n" (vLines ++ vtLines ++ vnLines ++ fLines) ++ "\n")

/-! ## The transform engine -/

/-- A 4-entry row/column selector. -/
def v4 {α : Type} (a b c d : α) (i : Fin 4) : α :=
  if i.val = 0 then a else if i.val = 1 then b else if i.val = 2 then c else d

/-- A 4x4 matrix from its 16 entries, row by row. -/
def m4 (a00 a01 a02 a03 a10 a11 a12 a13 a20 a21 a22 a23 a30 a31 a32 a33 : ℝ) :
    Fin 4 → Fin 4 → ℝ :=
  v4 (v4 a00 a01 a02 a03) (v4 a10 a11 a12 a13) (v4 a20 a21 a22 a23) (v4 a30 a31 a32 a33)

structure Transform where
  data : Fin 4 → Fin 4 → ℝ

theorem Transform.data_ext {a b : Transform} (h : a.data = b.data) : a = b := by
  cases a; cases b; cases h; rfl

def Transform.from_translation (t : ℝ × ℝ × ℝ) : Transform :=
  ⟨m4 1 0 0 t.1
      0 1 0 t.2.1
      0 0 1 t.2.2
      0 0 0 1⟩

noncomputable def Transform.from_rotation (r : ℝ × ℝ × ℝ × ℝ) : Transform :=
  let sqrt_norm := Real.sqrt (r.1 * r.1 + r.2.1 * r.2.1 + r.2.2.1 * r.2.2.1 + r.2.2.2 * r.2.2.2)
  let x := r.1 / sqrt_norm
  let y := r.2.1 / sqrt_norm
  let z := r.2.2.1 / sqrt_norm
  let w := r.2.2.2 / sqrt_norm
  ⟨m4 (1 - 2*y*y - 2*z*z) (2*x*y - 2*w*z)     (2*x*z + 2*y*w)     0
      (2*x*y + 2*w*z)     (1 - 2*x*x - 2*z*z) (2*y*z - 2*w*x)     0
      (2*x*z - 2*w*y)     (2*y*z + 2*w*x)     (1 - 2*x*x - 2*y*y) 0
      0                   0                   0                   1⟩

def Transform.from_scale (s : ℝ × ℝ × ℝ) : Transform :=
  ⟨m4 s.1 0 0 0
      0 s.2.1 0 0
      0 0 s.2.2 0
      0 0 0 1⟩

/-- Reshape a flat 16-value column-major sequence into rows; indexing
past the end of the list is a fatal error. -/
def Transform.from_matrix (m : List ℝ) : Option Transform :=
  if 16 ≤ m.length then
    some ⟨m4 (m.getD 0 0) (m.getD 4 0) (m.getD 8 0) (m.getD 12 0)
             (m.getD 1 0) (m.getD 5 0) (m.getD 9 0) (m.getD 13 0)
             (m.getD 2 0) (m.getD 6 0) (m.getD 10 0) (m.getD 14 0)
             (m.getD 3 0) (m.getD 7 0) (m.getD 11 0) (m.getD 15 0)⟩
  else none

def Transform.from_identity : Transform :=
  ⟨m4 1 0 0 0
      0 1 0 0
      0 0 1 0
      0 0 0 1⟩

/-- The multiplication loop: each entry starts at 0 and accumulates the
products over k = 0, 1, 2, 3. -/
def Transform.mul (a other : Transform) : Transform :=
  ⟨fun i j =>
    0 + a.data i 0 * other.data 0 j + a.data i 1 * other.data 1 j
      + a.data i 2 * other.data 2 j + a.data i 3 * other.data 3 j⟩

instance : Mul Transform := ⟨Transform.mul⟩

theorem Transform.mul_def (a b : Transform) : a * b = Transform.mul a b := rfl

/-! ## The scene-graph builder -/

structure Node where
  transform : Transform
  mesh : Option Nat
  parent : Option Nat
  children : List Nat

/-- Local transform of one document node: a raw matrix must not be
combined with TRS fields; otherwise translation * rotation * scale with
componentwise defaults. -/
noncomputable def localTransform (nd : NodeData) : Option Transform :=
  match nd.matrix with
  | some m =>
    match nd.scale, nd.rotation, nd.translation with
    | none, none, none => Transform.from_matrix m
    | _, _, _ => none
  | none =>
    some (Transform.from_translation (nd.translation.getD (0, 0, 0)) *
          Transform.from_rotation (nd.rotation.getD (0, 0, 0, 1)) *
          Transform.from_scale (nd.scale.getD (1, 1, 1)))

/-- Assign `i` as the parent of every listed child; a child that already
has a parent, or an out-of-range child index, is a fatal error. -/
def wireChildren (i : Nat) : List Node → List Nat → Option (List Node)
  | st, [] => some st
  | st, j :: js =>
    match st.get? j with
    | none => none
    | some cn =>
      match cn.parent with
      | some _ => none
      | none => wireChildren i (st.set j { cn with parent := some i }) js

/-- One iteration of the build loop: transform, then child wiring, then
the mesh reference. -/
noncomputable def buildStep (g : Gltf) (st : List Node) (i : Nat) : Option (List Node) :=
  match g.nodes.get? i with
  | none => none
  | some nd =>
    match localTransform nd with
    | none => none
    | some t =>
      match st.get? i with
      | none => none
      | some sn =>
        let st := st.set i { sn with transform := t }
        let cs := nd.children.getD []
        match wireChildren i st cs with
        | none => none
        | some st =>
          match st.get? i with
          | none => none
          | some sn =>
            some (st.set i { sn with children := cs, mesh := nd.mesh })

/-- The build pass: scene-root validation, node allocation, then the
per-node loop in document order. -/
noncomputable def buildNodes (g : Gltf) : Option (List Node) :=
  match g.scenes with
  | [s] =>
    if g.scene = 0 then
      if s.nodes = [0] then
        (List.range g.nodes.length).foldlM (buildStep g)
          (List.replicate g.nodes.length ⟨Transform.from_identity, none, none, []⟩)
      else none
    else none
  | _ => none

/-! ## The emit pass -/

/-- The parent-chain walk of the emit pass, with explicit fuel: the
source's while-loop terminates exactly when the chain reaches a parentless
node, which a fuel of `ns.length` always allows when the chain is acyclic. -/
def walk (ns : List Node) : Nat → Transform → Option Nat → Option Transform
  | _, t, none => some t
  | 0, _, some _ => none
  | fuel + 1, t, some p =>
    match ns.get? p with
    | none => none
    | some pn => walk ns fuel (pn.transform * t) pn.parent

/-- Sequential recursion over the children of a node. -/
def emitKids (e : Nat → Option (List (Nat × Transform))) :
    List Nat → Option (List (Nat × Transform))
  | [] => some []
  | c :: cs =>
    match e c with
    | none => none
    | some r =>
      match emitKids e cs with
      | none => none
      | some rs => some (r ++ rs)

/-- The mesh record of one node: a mesh-bearing node contributes its
(mesh, world transform) pair via the parent-chain walk, a meshless node
contributes nothing. -/
def emitHere (ns : List Node) (n : Node) : Option (List (Nat × Transform)) :=
  match n.mesh with
  | some m => (walk ns ns.length n.transform n.parent).map (fun w => [(m, w)])
  | none => some []

/-- The recursive emit pass: at a mesh-bearing node, walk the parent
chain and record (mesh, world transform); then recurse into children.
Fuel bounds the recursion depth; the source recursion terminates exactly
when some fuel suffices. -/
def emit : Nat → List Node → Nat → Option (List (Nat × Transform))
  | 0, _, _ => none
  | fuel + 1, ns, i =>
    match ns.get? i with
    | none => none
    | some n =>
      match emitHere ns n with
      | none => none
      | some h =>
        match emitKids (fun c => emit fuel ns c) n.children with
        | none => none
        | some rest => some (h ++ rest)

/-- The whole transform-report pipeline: build, then emit from node 0. -/
noncomputable def print_gltf_transforms (g : Gltf) (fuel : Nat) :
    Option (List (Nat × Transform)) :=
  match buildNodes g with
  | none => none
  | some ns => emit fuel ns 0

/-! ## Helper lemmas for the transform algebra -/

theorem v4_zero {α : Type} (a b c d : α) : v4 a b c d 0 = a := rfl

theorem v4_one {α : Type} (a b c d : α) : v4 a b c d 1 = b := rfl

theorem v4_two {α : Type} (a b c d : α) : v4 a b c d 2 = c := rfl

theorem v4_three {α : Type} (a b c d : α) : v4 a b c d 3 = d := rfl

theorem fin4_val_three : ((3 : Fin 4) : ℕ) = 3 := rfl

/-- The default TRS composition is the identity matrix. -/
theorem TRS_default_identity :
    Transform.from_translation (0, 0, 0) * Transform.from_rotation (0, 0, 0, 1) *
      Transform.from_scale (1, 1, 1) = Transform.from_identity := by
  have h1 : ((0 : ℝ) * 0 + 0 * 0 + 0 * 0 + 1 * 1) = 1 := by norm_num
  apply Transform.data_ext
  funext i j
  fin_cases i <;> fin_cases j <;>
    simp [Transform.mul_def, Transform.mul, Transform.from_translation,
      Transform.from_rotation, Transform.from_scale, Transform.from_identity,
      m4, v4, h1, Real.sqrt_one, fin4_val_three]

/-! ## Claim C9 -/

/-- C9: for every 4x4 transform T, Transform.from_identity * T = T and
T * Transform.from_identity = T, where * is the standard matrix product
with entries (A*B)[i][j] = sum over k of A[i][k]*B[k][j]. -/
theorem transform_identity_law :
    ∀ T : Transform,
      (Transform.from_identity * T = T ∧ T * Transform.from_identity = T) ∧
      ∀ A B : Transform, ∀ i j : Fin 4,
        (A * B).data i j = ∑ k : Fin 4, A.data i k * B.data k j := by
  intro T
  refine ⟨⟨?_, ?_⟩, ?_⟩
  · apply Transform.data_ext
    funext i j
    fin_cases i <;>
      simp [Transform.mul_def, Transform.mul, Transform.from_identity, m4, v4, fin4_val_three]
  · apply Transform.data_ext
    funext i j
    fin_cases j <;>
      simp [Transform.mul_def, Transform.mul, Transform.from_identity, m4, v4, fin4_val_three]
  · intro A B i j
    rw [Fin.sum_univ_four]
    simp [Transform.mul_def, Transform.mul]

/-! ## Claim C4 -/

/-- C4: a node whose local transform is not given as a raw matrix gets
from_translation(t) * from_rotation(r) * from_scale(s) with defaults
s=(1,1,1), r=(0,0,0,1), t=(0,0,0) for missing fields; with no transform
fields at all the local transform is the identity. -/
theorem local_transform_trs (nd : NodeData) (h : nd.matrix = none) :
    localTransform nd =
      some (Transform.from_translation (nd.translation.getD (0, 0, 0)) *
            Transform.from_rotation (nd.rotation.getD (0, 0, 0, 1)) *
            Transform.from_scale (nd.scale.getD (1, 1, 1))) ∧
    (nd.scale = none → nd.rotation = none → nd.translation = none →
      localTransform nd = some Transform.from_identity) := by
  constructor
  · simp [localTransform, h]
  · intro hs hr ht
    have h1 : localTransform nd =
        some (Transform.from_translation ((0 : ℝ), (0 : ℝ), (0 : ℝ)) *
              Transform.from_rotation ((0 : ℝ), (0 : ℝ), (0 : ℝ), (1 : ℝ)) *
              Transform.from_scale ((1 : ℝ), (1 : ℝ), (1 : ℝ))) := by
      simp [localTransform, h, hs, hr, ht]
    rw [h1, TRS_default_identity]

/-- C4 witness: a node with no transform fields at all gets the identity
as its local transform. -/
theorem local_transform_trs_witness :
    localTransform ⟨none, none, none, none, none, none⟩ = some Transform.from_identity :=
  (local_transform_trs ⟨none, none, none, none, none, none⟩ rfl).2 rfl rfl rfl

/-! ## Characterisation of the element-building loop -/

theorem buildList_some_length {α : Type} (f : Nat → Option α) :
    ∀ n r, buildList f n = some r → r.length = n := by
  intro n
  induction n with
  | zero =>
    intro r h
    simp [buildList] at h
    simp [← h]
  | succ n ih =>
    intro r h
    rcases hb : buildList f n with _ | xs <;> rcases hf : f n with _ | x <;>
      simp [buildList, hb, hf] at h
    subst h
    simp [ih xs hb]

theorem buildList_some_get {α : Type} (f : Nat → Option α) :
    ∀ n r, buildList f n = some r → ∀ i, i < n → f i = r.get? i := by
  intro n
  induction n with
  | zero =>
    intro r _ i hi
    exact absurd hi (Nat.not_lt_zero i)
  | succ n ih =>
    intro r h i hi
    rcases hb : buildList f n with _ | xs <;> rcases hf : f n with _ | x <;>
      simp [buildList, hb, hf] at h
    subst h
    have hlen : xs.length = n := buildList_some_length f n xs hb
    rcases Nat.lt_or_ge i n with hlt | hge
    · rw [List.get?_append (by omega)]
      exact ih xs hb i hlt
    · have hin : i = n := by omega
      subst hin
      rw [List.get?_append_right (by omega), hlen, Nat.sub_self]
      simp [hf]

/-! ## Claim C1 -/

/-- C1: a successful accessor decode returns exactly accessor.count
elements; element i is decoded from the element_size bytes starting at
accessor.byteOffset + view.byteOffset + i * stride, with
stride = max(element_size, view.byteStride-or-0) and
element_size = components_for(element_type) * bytes_for(component_type). -/
theorem accessor_decode_elements
    (g : Gltf) (buffer : List Nat) (ai : Nat) (acc : Accessor) (view : BufferView)
    (r : List Element)
    (hacc : g.accessors.get? ai = some acc)
    (hview : g.bufferViews.get? acc.bufferView = some view)
    (hr : parse_accessor_data g buffer ai = some r) :
    r.length = acc.count ∧
    ∀ i, i < acc.count →
      parse_element_data acc.type acc.componentType
        (pySlice buffer
          (acc.byteOffset.getD 0 + view.byteOffset.getD 0 +
            i * max (NUM_COMPONENTS acc.type * COMPONENT_SIZE acc.componentType)
              (view.byteStride.getD 0))
          (acc.byteOffset.getD 0 + view.byteOffset.getD 0 +
            i * max (NUM_COMPONENTS acc.type * COMPONENT_SIZE acc.componentType)
              (view.byteStride.getD 0) +
            NUM_COMPONENTS acc.type * COMPONENT_SIZE acc.componentType)) = r.get? i := by
  simp only [parse_accessor_data, hacc, hview] at hr
  by_cases hbuf : view.buffer = 0
  · rw [if_pos hbuf] at hr
    by_cases hbound :
        ((acc.byteOffset.getD 0 : ℤ) +
          ((max (NUM_COMPONENTS acc.type * COMPONENT_SIZE acc.componentType)
              (view.byteStride.getD 0) : ℕ) * ((acc.count : ℤ) - 1) +
            (NUM_COMPONENTS acc.type * COMPONENT_SIZE acc.componentType : ℕ)) ≤
          (view.byteLength : ℤ))
    · rw [if_pos hbound] at hr
      exact ⟨buildList_some_length _ _ _ hr, fun i hi => buildList_some_get _ _ _ hr i hi⟩
    · rw [if_neg hbound] at hr
      exact absurd hr (by simp)
  · rw [if_neg hbuf] at hr
    exact absurd hr (by simp)

/-- A two-element UNSIGNED_SHORT scalar accessor over an 8-byte view with
byteStride 4: each 2-byte element is followed by a 2-byte gap. -/
def gStride : Gltf :=
  { accessors := [⟨0, none, .SCALAR, .UNSIGNED_SHORT, 2⟩],
    bufferViews := [⟨0, none, 8, some 4⟩],
    nodes := [], scenes := [], scene := 0 }

def bStride : List Nat := [1, 0, 9, 9, 2, 0, 9, 9]

/-- C1 witness: decoding gStride yields the 2 elements 1 and 2, and
element 1 is read from the 2 bytes at offset 1 * stride = 4, skipping
the gap bytes. -/
theorem accessor_decode_elements_witness :
    ([Element.scalar (.int 1), Element.scalar (.int 2)] : List Element).length = 2 ∧
    parse_element_data ElementType.SCALAR ComponentType.UNSIGNED_SHORT (pySlice bStride 4 6) =
      some (Element.scalar (.int 2)) := by
  have h := accessor_decode_elements gStride bStride 0
    ⟨0, none, .SCALAR, .UNSIGNED_SHORT, 2⟩ ⟨0, none, 8, some 4⟩
    [Element.scalar (.int 1), Element.scalar (.int 2)] rfl rfl (by decide)
  refine ⟨h.1, ?_⟩
  have h2 := h.2 1 (by decide)
  simpa [NUM_COMPONENTS, COMPONENT_SIZE] using h2

/-! ## Claim C3 -/

/-- C3: the accessor bounds check: decode fails whenever
accessor.byteOffset + stride*(count-1) + element_size exceeds
view.byteLength, and when that quantity is at most view.byteLength the
check passes and decoding proceeds to the element loop. -/
theorem accessor_bounds_check
    (g : Gltf) (buffer : List Nat) (ai : Nat) (acc : Accessor) (view : BufferView)
    (hacc : g.accessors.get? ai = some acc)
    (hview : g.bufferViews.get? acc.bufferView = some view)
    (hbuf : view.buffer = 0) :
    ((view.byteLength : ℤ) <
        (acc.byteOffset.getD 0 : ℤ) +
          ((max (NUM_COMPONENTS acc.type * COMPONENT_SIZE acc.componentType)
              (view.byteStride.getD 0) : ℕ) * ((acc.count : ℤ) - 1) +
            (NUM_COMPONENTS acc.type * COMPONENT_SIZE acc.componentType : ℕ)) →
      parse_accessor_data g buffer ai = none) ∧
    ((acc.byteOffset.getD 0 : ℤ) +
          ((max (NUM_COMPONENTS acc.type * COMPONENT_SIZE acc.componentType)
              (view.byteStride.getD 0) : ℕ) * ((acc.count : ℤ) - 1) +
            (NUM_COMPONENTS acc.type * COMPONENT_SIZE acc.componentType : ℕ)) ≤
        (view.byteLength : ℤ) →
      parse_accessor_data g buffer ai =
        buildList (fun i =>
          parse_element_data acc.type acc.componentType
            (pySlice buffer
              (acc.byteOffset.getD 0 + view.byteOffset.getD 0 +
                i * max (NUM_COMPONENTS acc.type * COMPONENT_SIZE acc.componentType)
                  (view.byteStride.getD 0))
              (acc.byteOffset.getD 0 + view.byteOffset.getD 0 +
                i * max (NUM_COMPONENTS acc.type * COMPONENT_SIZE acc.componentType)
                  (view.byteStride.getD 0) +
                NUM_COMPONENTS acc.type * COMPONENT_SIZE acc.componentType)))
          acc.count) := by
  constructor
  · intro hgt
    simp only [parse_accessor_data, hacc, hview]
    rw [if_pos hbuf, if_neg (by omega)]
  · intro hle
    simp only [parse_accessor_data, hacc, hview]
    rw [if_pos hbuf, if_pos hle]

/-- A three-element UNSIGNED_SHORT scalar accessor needing 6 bytes over a
4-byte view: the bounds check must fail. -/
def gBound : Gltf :=
  { accessors := [⟨0, none, .SCALAR, .UNSIGNED_SHORT, 3⟩],
    bufferViews := [⟨0, none, 4, none⟩],
    nodes := [], scenes := [], scene := 0 }

/-- C3 witness: decoding the undersized view aborts with a failure. -/
theorem accessor_bounds_check_witness :
    parse_accessor_data gBound [1, 0, 2, 0, 3, 0] 0 = none := by
  have h := accessor_bounds_check gBound [1, 0, 2, 0, 3, 0] 0
    ⟨0, none, .SCALAR, .UNSIGNED_SHORT, 3⟩ ⟨0, none, 4, none⟩ rfl rfl rfl
  exact h.1 (by decide)

/-! ## Claim C6 -/

/-- C6: element decoding splits the element bytes into consecutive
component_size-byte chunks in increasing offset order and decodes each
little-endian per the component type; a 1-component element decodes to
the bare scalar (FF FF is 65535 as UNSIGNED_SHORT and -1 as SHORT), a
multi-component element to the ordered list of component scalars. -/
theorem element_decode_components :
    (∀ (et : ElementType) (ct : ComponentType) (buf : List Nat),
        NUM_COMPONENTS et = 1 →
        parse_element_data et ct buf = (COMPONENT_PARSERS ct buf).map Element.scalar) ∧
    (∀ (et : ElementType) (ct : ComponentType) (buf : List Nat) (vs : List Value),
        NUM_COMPONENTS et ≠ 1 →
        parse_element_data et ct buf = some (.vec vs) →
        vs.length = NUM_COMPONENTS et ∧
        ∀ i, i < NUM_COMPONENTS et →
          COMPONENT_PARSERS ct
            (pySlice buf (i * COMPONENT_SIZE ct) (i * COMPONENT_SIZE ct + COMPONENT_SIZE ct)) =
            vs.get? i) ∧
    COMPONENT_PARSERS .UNSIGNED_SHORT [255, 255] = some (.int 65535) ∧
    COMPONENT_PARSERS .SHORT [255, 255] = some (.int (-1)) ∧
    COMPONENT_PARSERS .BYTE [255] = some (.int (-1)) ∧
    COMPONENT_PARSERS .UNSIGNED_BYTE [255] = some (.int 255) ∧
    COMPONENT_PARSERS .UNSIGNED_INT [255, 255, 255, 255] = some (.int 4294967295) ∧
    COMPONENT_PARSERS .UNSIGNED_SHORT [1, 2] = some (.int 513) ∧
    COMPONENT_PARSERS .FLOAT [0, 0, 128, 63] = some (.float (.finite 1)) ∧
    parse_element_data .SCALAR .UNSIGNED_SHORT [255, 255] = some (.scalar (.int 65535)) ∧
    parse_element_data .SCALAR .SHORT [255, 255] = some (.scalar (.int (-1))) ∧
    parse_element_data .VEC2 .UNSIGNED_SHORT [1, 0, 2, 0] =
      some (.vec [.int 1, .int 2]) := by
  refine ⟨?_, ?_, ?_⟩
  · intro et ct buf h1
    simp only [parse_element_data]
    rw [if_pos h1]
  · intro et ct buf vs hne hp
    simp only [parse_element_data] at hp
    rw [if_neg hne] at hp
    rcases hb : buildList (fun i =>
        COMPONENT_PARSERS ct
          (pySlice buf (i * COMPONENT_SIZE ct) (i * COMPONENT_SIZE ct + COMPONENT_SIZE ct)))
        (NUM_COMPONENTS et) with _ | ws
    · rw [hb] at hp
      simp at hp
    · rw [hb] at hp
      simp at hp
      subst hp
      exact ⟨buildList_some_length _ _ _ hb, fun i hi => buildList_some_get _ _ _ hb i hi⟩
  · refine ⟨by decide, by decide, by decide, by decide, by decide, by decide, ?_,
      by decide, by decide, by decide⟩
    simp only [COMPONENT_PARSERS, float32OfBits, leNat, COMPONENT_SIZE]
    norm_num

/-- C6 witness: the two quantified parts at concrete inputs: a VEC3 of
unsigned bytes decodes to the ordered component list, and a SCALAR of
unsigned bytes to the bare scalar. -/
theorem element_decode_components_witness :
    parse_element_data ElementType.SCALAR ComponentType.UNSIGNED_BYTE [7] =
      (COMPONENT_PARSERS ComponentType.UNSIGNED_BYTE [7]).map Element.scalar ∧
    ([Value.int 1, Value.int 2, Value.int 3] : List Value).length =
      NUM_COMPONENTS ElementType.VEC3 ∧
    COMPONENT_PARSERS ComponentType.UNSIGNED_BYTE (pySlice [1, 2, 3] (2 * 1) (2 * 1 + 1)) =
      ([Value.int 1, Value.int 2, Value.int 3] : List Value).get? 2 := by
  have h1 := element_decode_components.1 ElementType.SCALAR ComponentType.UNSIGNED_BYTE [7] rfl
  have h2 := element_decode_components.2.1 ElementType.VEC3 ComponentType.UNSIGNED_BYTE
    [1, 2, 3] [.int 1, .int 2, .int 3] (by decide) (by decide)
  refine ⟨h1, h2.1, ?_⟩
  have h3 := h2.2 2 (by decide)
  simpa [COMPONENT_SIZE] using h3

/-! ## Claim C7 -/

/-- C7: mesh loading fails unless the mesh has exactly one primitive;
on success the index count is a multiple of 3, every present optional
attribute sequence has the position sequence length, and the MeshData is
assembled from the decoded accessors with absent attributes recorded as
absent; and when all the checks hold the load succeeds. -/
theorem mesh_load_validation (g : Gltf) (buffer : List Nat) (mesh : MeshJson) :
    (mesh.primitives.length ≠ 1 → load_gltf_mesh g buffer mesh = none) ∧
    (∀ md, load_gltf_mesh g buffer mesh = some md →
      md.indices.length % 3 = 0 ∧
      (∀ l, md.normals = some l → l.length = md.positions.length) ∧
      (∀ l, md.tangents = some l → l.length = md.positions.length) ∧
      (∀ l, md.texcoords = some l → l.length = md.positions.length) ∧
      (∀ p, mesh.primitives = [p] →
        p.indices.bind (parse_accessor_data g buffer) = some md.indices ∧
        p.attributes.POSITION.bind (parse_accessor_data g buffer) = some md.positions ∧
        parseOpt g buffer p.attributes.NORMAL = some md.normals ∧
        parseOpt g buffer p.attributes.TANGENT = some md.tangents ∧
        parseOpt g buffer p.attributes.TEXCOORD_0 = some md.texcoords ∧
        (md.normals = none ↔ p.attributes.NORMAL = none) ∧
        (md.tangents = none ↔ p.attributes.TANGENT = none) ∧
        (md.texcoords = none ↔ p.attributes.TEXCOORD_0 = none))) ∧
    (∀ p inds poss onorm otan otex,
      mesh.primitives = [p] →
      p.indices.bind (parse_accessor_data g buffer) = some inds →
      p.attributes.POSITION.bind (parse_accessor_data g buffer) = some poss →
      parseOpt g buffer p.attributes.NORMAL = some onorm →
      parseOpt g buffer p.attributes.TANGENT = some otan →
      parseOpt g buffer p.attributes.TEXCOORD_0 = some otex →
      inds.length % 3 = 0 →
      (∀ l, onorm = some l → l.length = poss.length) →
      (∀ l, otan = some l → l.length = poss.length) →
      (∀ l, otex = some l → l.length = poss.length) →
      load_gltf_mesh g buffer mesh = some ⟨inds, poss, onorm, otan, otex⟩) := by
  refine ⟨?_, ?_, ?_⟩
  · intro hne
    rcases hm : mesh.primitives with _ | ⟨p, _ | ⟨q, rest⟩⟩
    · simp [load_gltf_mesh, hm]
    · exact absurd (by simp [hm]) hne
    · simp [load_gltf_mesh, hm]
  · intro md hmd
    rcases hm : mesh.primitives with _ | ⟨p, _ | ⟨q, rest⟩⟩ <;>
      simp only [load_gltf_mesh, hm] at hmd
    · exact absurd hmd (by simp)
    case cons.cons => exact absurd hmd (by simp)
    rcases hii : p.indices with _ | iidx
    · simp [hii] at hmd
    rcases hpi : parse_accessor_data g buffer iidx with _ | inds
    · simp [hii, hpi] at hmd
    rcases hpp : p.attributes.POSITION with _ | pidx
    · simp [hii, hpi, hpp] at hmd
    rcases hpo : parse_accessor_data g buffer pidx with _ | poss
    · simp [hii, hpi, hpp, hpo] at hmd
    rcases hn : parseOpt g buffer p.attributes.NORMAL with _ | onorm
    · simp [hii, hpi, hpp, hpo, hn] at hmd
    rcases ht : parseOpt g buffer p.attributes.TANGENT with _ | otan
    · simp [hii, hpi, hpp, hpo, hn, ht] at hmd
    rcases hx : parseOpt g buffer p.attributes.TEXCOORD_0 with _ | otex
    · simp [hii, hpi, hpp, hpo, hn, ht, hx] at hmd
    rw [hii] at hmd
    simp only [hpi, hpp, hpo, hn, ht, hx] at hmd
    by_cases h3 : inds.length % 3 = 0
    · rw [if_pos h3] at hmd
      by_cases hall : ([onorm, otan, otex].all
          (fun x => match x with
            | none => true
            | some l => l.length == poss.length)) = true
      · rw [if_pos hall] at hmd
        have hmd2 : md = ⟨inds, poss, onorm, otan, otex⟩ := by
          cases hmd
          rfl
        subst hmd2
        simp only [List.all_cons, List.all_nil, Bool.and_eq_true, beq_iff_eq] at hall
        refine ⟨h3, ?_, ?_, ?_, ?_⟩
        · intro l hl
          dsimp only at hl ⊢
          rw [hl] at hall
          simpa using hall.1
        · intro l hl
          dsimp only at hl ⊢
          rw [hl] at hall
          simpa using hall.2.1
        · intro l hl
          dsimp only at hl ⊢
          rw [hl] at hall
          simpa using hall.2.2.1
        · intro p2 hp2
          have hpeq : p2 = p := by
            injection hp2 with h _
            exact h.symm
          rw [hpeq]
          refine ⟨by simp [hii, hpi], by simp [hpp, hpo], hn, ht, hx, ?_, ?_, ?_⟩
          · rcases ha : p.attributes.NORMAL with _ | aidx
            · rw [ha] at hn
              simp only [parseOpt] at hn
              cases hn
              simp
            · rw [ha] at hn
              simp only [parseOpt] at hn
              rcases hq : parse_accessor_data g buffer aidx with _ | xs <;> rw [hq] at hn
              · exact absurd hn (by simp)
              · cases hn
                simp
          · rcases ha : p.attributes.TANGENT with _ | aidx
            · rw [ha] at ht
              simp only [parseOpt] at ht
              cases ht
              simp
            · rw [ha] at ht
              simp only [parseOpt] at ht
              rcases hq : parse_accessor_data g buffer aidx with _ | xs <;> rw [hq] at ht
              · exact absurd ht (by simp)
              · cases ht
                simp
          · rcases ha : p.attributes.TEXCOORD_0 with _ | aidx
            · rw [ha] at hx
              simp only [parseOpt] at hx
              cases hx
              simp
            · rw [ha] at hx
              simp only [parseOpt] at hx
              rcases hq : parse_accessor_data g buffer aidx with _ | xs <;> rw [hq] at hx
              · exact absurd hx (by simp)
              · cases hx
                simp
      · rw [if_neg hall] at hmd
        exact absurd hmd (by simp)
    · rw [if_neg h3] at hmd
      exact absurd hmd (by simp)
  · intro p inds poss onorm otan otex hm hbi hbp hn ht hx h3 hln hlt hlx
    rcases hii : p.indices with _ | iidx
    · rw [hii] at hbi
      exact absurd hbi (by simp)
    rw [hii] at hbi
    simp only [Option.some_bind] at hbi
    rcases hpp : p.attributes.POSITION with _ | pidx
    · rw [hpp] at hbp
      exact absurd hbp (by simp)
    rw [hpp] at hbp
    simp only [Option.some_bind] at hbp
    have hall : ([onorm, otan, otex].all
        (fun x => match x with
          | none => true
          | some l => l.length == poss.length)) = true := by
      simp only [List.all_cons, List.all_nil, Bool.and_eq_true]
      refine ⟨?_, ?_, ?_, trivial⟩
      · rcases onorm with _ | l
        · rfl
        · simpa using hln l rfl
      · rcases otan with _ | l
        · rfl
        · simpa using hlt l rfl
      · rcases otex with _ | l
        · rfl
        · simpa using hlx l rfl
    simp only [load_gltf_mesh, hm, hii, hbi, hpp, hbp, hn, ht, hx]
    rw [if_pos h3, if_pos hall]

/-- A one-primitive triangle mesh document: 3 unsigned-byte indices and 3
unsigned-byte VEC3 positions in one 12-byte buffer. -/
def gLoad : Gltf :=
  { accessors := [⟨0, none, .SCALAR, .UNSIGNED_BYTE, 3⟩, ⟨1, none, .VEC3, .UNSIGNED_BYTE, 3⟩],
    bufferViews := [⟨0, none, 3, none⟩, ⟨0, some 3, 9, none⟩],
    nodes := [], scenes := [], scene := 0 }

def bLoad : List Nat := [0, 1, 2, 1, 2, 3, 4, 5, 6, 7, 8, 9]

def meshLoad : MeshJson := ⟨[⟨some 0, ⟨some 1, none, none, none⟩⟩]⟩

/-- C7 witness: loading the concrete triangle mesh succeeds and the
assembled MeshData records the absent optional attributes as absent. -/
theorem mesh_load_validation_witness :
    load_gltf_mesh gLoad bLoad meshLoad =
      some ⟨[.scalar (.int 0), .scalar (.int 1), .scalar (.int 2)],
            [.vec [.int 1, .int 2, .int 3], .vec [.int 4, .int 5, .int 6],
              .vec [.int 7, .int 8, .int 9]],
            none, none, none⟩ :=
  (mesh_load_validation gLoad bLoad meshLoad).2.2
    ⟨some 0, ⟨some 1, none, none, none⟩⟩
    [.scalar (.int 0), .scalar (.int 1), .scalar (.int 2)]
    [.vec [.int 1, .int 2, .int 3], .vec [.int 4, .int 5, .int 6], .vec [.int 7, .int 8, .int 9]]
    none none none rfl (by decide) (by decide) rfl rfl rfl (by decide)
    (fun l h => nomatch h) (fun l h => nomatch h) (fun l h => nomatch h)

/-! ## Claim C8 -/

/-- C8: dumping a MeshData with indices [0,1,2], 3 positions and no
normals or texcoords produces, in order: 3 v lines (6-decimal fixed
point per position), 3 default vt lines, 3 default vn lines and the
face line f 1/1/1 2/2/2 3/3/3, newline-joined with a trailing newline. -/
theorem dump_triangle_output
    (x1 y1 z1 x2 y2 z2 x3 y3 z3 : Value) (tg : Option (List Element)) :
    dump_mesh_data
      ⟨[.scalar (.int 0), .scalar (.int 1), .scalar (.int 2)],
       [.vec [x1, y1, z1], .vec [x2, y2, z2], .vec [x3, y3, z3]],
       none, tg, none⟩ =
      some (String.intercalate "\n"
        ["v " ++ fmtVal x1 ++ " " ++ fmtVal y1 ++ " " ++ fmtVal z1,
         "v " ++ fmtVal x2 ++ " " ++ fmtVal y2 ++ " " ++ fmtVal z2,
         "v " ++ fmtVal x3 ++ " " ++ fmtVal y3 ++ " " ++ fmtVal z3,
         "vt 0.000000 0.000000", "vt 0.000000 0.000000", "vt 0.000000 0.000000",
         "vn 0.000000 0.000000 1.000000", "vn 0.000000 0.000000 1.000000",
         "vn 0.000000 0.000000 1.000000",
         "f 1/1/1 2/2/2 3/3/3"] ++ "\n") := rfl

/-! ## Claim C2 -/

/-- A document whose two nodes list each other as children: node 1 is a
child of node 0 and node 0 a child of node 1.  Each parent assignment
finds the child still parentless, so every build assertion passes. -/
def gCyclic : Gltf :=
  { accessors := [], bufferViews := [],
    nodes := [⟨none, none, none, none, some [1], some 0⟩,
              ⟨none, none, none, none, some [0], none⟩],
    scenes := [⟨[0]⟩], scene := 0 }

/-- C2: the build pass accepts gCyclic without any assertion failing,
yet the parent links form the cycle 0 -> 1 -> 0 (so the node graph is
not a tree), and the emit pass never terminates: for every fuel the
parent-chain walk and the child recursion fail to complete. -/
theorem build_accepts_cycle_emit_diverges :
    ∃ ns : List Node, buildNodes gCyclic = some ns ∧
      (ns.get? 0).map Node.parent = some (some 1) ∧
      (ns.get? 1).map Node.parent = some (some 0) ∧
      ∀ fuel : Nat, print_gltf_transforms gCyclic fuel = none := by
  refine ⟨_, rfl, rfl, rfl, ?_⟩
  intro fuel
  cases fuel with
  | zero => rfl
  | succ f => rfl

/-! ## Claim C5 -/

/-- The ancestor chain of a node: the list of node indices visited by
the parent-chain walk, nearest parent first, ending at a parentless
node. -/
inductive PChain (ns : List Node) : Nat → List Nat → Prop where
  | nil : ∀ i n, ns.get? i = some n → n.parent = none → PChain ns i []
  | cons : ∀ i n p l, ns.get? i = some n → n.parent = some p → PChain ns p l →
      PChain ns i (p :: l)

/-- The transform stored at a node index. -/
def tOf (ns : List Node) (p : Nat) : Transform :=
  ((ns.get? p).map Node.transform).getD Transform.from_identity

theorem pchain_node {ns : List Node} {i : Nat} {l : List Nat} (h : PChain ns i l) :
    ∃ n, ns.get? i = some n := by
  cases h with
  | nil _ n hn _ => exact ⟨n, hn⟩
  | cons _ n _ _ hn _ _ => exact ⟨n, hn⟩

/-- The parent-chain walk accumulates exactly the ancestor transforms,
nearest parent innermost. -/
theorem walk_chain (ns : List Node) :
    ∀ (l : List Nat) (i : Nat) (n : Node) (t : Transform) (fuel : Nat),
      PChain ns i l → ns.get? i = some n → l.length ≤ fuel →
      walk ns fuel t n.parent = some (l.foldl (fun acc p => tOf ns p * acc) t) := by
  intro l
  induction l with
  | nil =>
    intro i n t fuel hch hn _
    cases hch with
    | nil _ n2 hn2 hp2 =>
      rw [hn] at hn2
      cases hn2
      rw [hp2]
      cases fuel <;> rfl
  | cons p l ih =>
    intro i n t fuel hch hn hlen
    cases hch with
    | cons _ n2 p2 l2 hn2 hp2 hch2 =>
      rw [hn] at hn2
      cases hn2
      rw [hp2]
      cases fuel with
      | zero => exact absurd hlen (by simp)
      | succ f =>
        obtain ⟨np, hnp⟩ := pchain_node hch2
        have hstep : walk ns (f + 1) t (some p) = walk ns f (np.transform * t) np.parent := by
          simp only [walk, hnp]
        rw [hstep]
        have := ih p np (np.transform * t) f hch2 hnp (by simp at hlen; omega)
        rw [this]
        have hnp2 : ns[p]? = some np := by
          rw [← List.get?_eq_getElem?]
          exact hnp
        have htof : tOf ns p = np.transform := by
          simp [tOf, hnp2]
        simp [htof]

/-- C5: the emitted world transform of a mesh-bearing node is its local
transform left-multiplied successively by each ancestor transform up the
parent chain, the root's transform being the outermost factor. -/
theorem emitted_world_transform
    (ns : List Node) (fuel : Nat) (i : Nat) (n : Node) (m : Nat) (l : List Nat)
    (out : List (Nat × Transform))
    (hout : emit fuel ns i = some out)
    (hn : ns.get? i = some n)
    (hm : n.mesh = some m)
    (hchain : PChain ns i l)
    (hlen : l.length ≤ ns.length) :
    (m, l.foldl (fun acc p => tOf ns p * acc) n.transform) ∈ out := by
  cases fuel with
  | zero => exact absurd hout (by simp [emit])
  | succ f =>
    have hw := walk_chain ns l i n n.transform ns.length hchain hn hlen
    have hhere : emitHere ns n =
        some [(m, l.foldl (fun acc p => tOf ns p * acc) n.transform)] := by
      simp only [emitHere, hm, hw]
      rfl
    simp only [emit, hn, hhere] at hout
    rcases hk : emitKids (fun c => emit f ns c) n.children with _ | rest
    · rw [hk] at hout
      exact absurd hout (by simp)
    · rw [hk] at hout
      have : (m, l.foldl (fun acc p => tOf ns p * acc) n.transform) :: rest = out := by
        cases hout
        rfl
      rw [← this]
      exact List.mem_cons_self _ _

/-- A root -> child -> grandchild chain of three distinct translations,
with a mesh on the grandchild. -/
noncomputable def chainNodes : List Node :=
  [⟨Transform.from_translation (1, 0, 0), none, none, [1]⟩,
   ⟨Transform.from_translation (0, 2, 0), none, some 0, [2]⟩,
   ⟨Transform.from_translation (0, 0, 3), some 7, some 1, []⟩]

/-- C5 witness: in the three-translation chain the grandchild's emitted
world transform is the product of the three translations, composed
outward from the leaf. -/
theorem emitted_world_transform_witness :
    ((7 : ℕ), Transform.from_translation (1, 0, 0) *
        (Transform.from_translation (0, 2, 0) * Transform.from_translation (0, 0, 3))) ∈
      [((7 : ℕ), Transform.from_translation (1, 0, 0) *
        (Transform.from_translation (0, 2, 0) * Transform.from_translation (0, 0, 3)))] := by
  have h := emitted_world_transform chainNodes 1 2
    ⟨Transform.from_translation (0, 0, 3), some 7, some 1, []⟩ 7 [1, 0]
    [((7 : ℕ), Transform.from_translation (1, 0, 0) *
      (Transform.from_translation (0, 2, 0) * Transform.from_translation (0, 0, 3)))]
    rfl rfl rfl
    (PChain.cons 2 ⟨Transform.from_translation (0, 0, 3), some 7, some 1, []⟩ 1 [0] rfl rfl
      (PChain.cons 1 ⟨Transform.from_translation (0, 2, 0), none, some 0, [2]⟩ 0 [] rfl rfl
        (PChain.nil 0 ⟨Transform.from_translation (1, 0, 0), none, none, [1]⟩ rfl rfl)))
    (by simp [chainNodes])
  exact h

/-! ## Claim C10 -/

/-- Reachability along children links, starting from node i. -/
inductive ReachFrom (ns : List Node) : Nat → Nat → Prop where
  | refl : ∀ i, ReachFrom ns i i
  | step : ∀ i j k n, ReachFrom ns i j → ns.get? j = some n → k ∈ n.children →
      ReachFrom ns i k

theorem reachFrom_trans {ns : List Node} {i j k : Nat}
    (h1 : ReachFrom ns i j) (h2 : ReachFrom ns j k) : ReachFrom ns i k := by
  induction h2 with
  | refl => exact h1
  | step j2 k2 n hr hn hc ih => exact ReachFrom.step _ j2 k2 n ih hn hc

theorem emitKids_elem {e : Nat → Option (List (Nat × Transform))} :
    ∀ (cs : List Nat) (rs : List (Nat × Transform)), emitKids e cs = some rs →
      ∀ c ∈ cs, ∃ r, e c = some r ∧ r ⊆ rs := by
  intro cs
  induction cs with
  | nil =>
    intro rs _ c hc
    exact absurd hc (List.not_mem_nil c)
  | cons c0 cs ih =>
    intro rs h c hc
    rcases he : e c0 with _ | r0 <;> rw [emitKids, he] at h
    · exact absurd h (by simp)
    rcases hk : emitKids e cs with _ | rs0 <;> rw [hk] at h
    · exact absurd h (by simp)
    have hrs : r0 ++ rs0 = rs := by
      cases h
      rfl
    rcases List.mem_cons.mp hc with hce | hcs
    · subst hce
      exact ⟨r0, he, by rw [← hrs]; exact fun x hx => List.mem_append_left _ hx⟩
    · obtain ⟨r, her, hsub⟩ := ih rs0 hk c hcs
      exact ⟨r, her, fun x hx => by rw [← hrs]; exact List.mem_append_right _ (hsub hx)⟩

theorem emitKids_sound {e : Nat → Option (List (Nat × Transform))} :
    ∀ (cs : List Nat) (rs : List (Nat × Transform)), emitKids e cs = some rs →
      ∀ p ∈ rs, ∃ c ∈ cs, ∃ r, e c = some r ∧ p ∈ r := by
  intro cs
  induction cs with
  | nil =>
    intro rs h p hp
    cases h
    exact absurd hp (List.not_mem_nil p)
  | cons c0 cs ih =>
    intro rs h p hp
    rcases he : e c0 with _ | r0 <;> rw [emitKids, he] at h
    · exact absurd h (by simp)
    rcases hk : emitKids e cs with _ | rs0 <;> rw [hk] at h
    · exact absurd h (by simp)
    have hrs : r0 ++ rs0 = rs := by
      cases h
      rfl
    rw [← hrs] at hp
    rcases List.mem_append.mp hp with hp0 | hp1
    · exact ⟨c0, List.mem_cons_self _ _, r0, he, hp0⟩
    · obtain ⟨c, hcs, r, her, hpr⟩ := ih rs0 hk p hp1
      exact ⟨c, List.mem_cons_of_mem _ hcs, r, her, hpr⟩

/-- Every emitted record comes from a node reachable from the start
index that carries that mesh. -/
theorem emit_sound :
    ∀ (fuel : Nat) (ns : List Node) (i : Nat) (out : List (Nat × Transform)),
      emit fuel ns i = some out →
      ∀ p ∈ out, ∃ j n, ReachFrom ns i j ∧ ns.get? j = some n ∧ n.mesh = some p.1 := by
  intro fuel
  induction fuel with
  | zero =>
    intro ns i out h
    exact absurd h (by simp [emit])
  | succ f ih =>
    intro ns i out h p hp
    rcases hn : ns.get? i with _ | n <;> simp only [emit, hn] at h
    · exact absurd h (by simp)
    rcases hh : emitHere ns n with _ | here <;> simp only [hh] at h
    · exact absurd h (by simp)
    rcases hk : emitKids (fun c => emit f ns c) n.children with _ | rest <;> simp only [hk] at h
    · exact absurd h (by simp)
    have hout : here ++ rest = out := by
      cases h
      rfl
    rw [← hout] at hp
    rcases List.mem_append.mp hp with hph | hpr
    · rcases hm : n.mesh with _ | m <;> simp only [emitHere, hm] at hh
      · cases hh
        exact absurd hph (List.not_mem_nil p)
      · rcases hw : walk ns ns.length n.transform n.parent with _ | w <;> simp only [hw] at hh
        · exact absurd hh (by simp)
        · have hhl : [(m, w)] = here := by
            cases hh
            rfl
          rw [← hhl] at hph
          have hpe : p = (m, w) := List.mem_singleton.mp hph
          exact ⟨i, n, ReachFrom.refl i, hn, by rw [hpe]; exact hm⟩
    · obtain ⟨c, hc, r, her, hpr2⟩ := emitKids_sound n.children rest hk p hpr
      obtain ⟨j, n2, hreach, hn2, hm2⟩ := ih ns c r her p hpr2
      exact ⟨j, n2, reachFrom_trans (ReachFrom.step i i c n (ReachFrom.refl i) hn hc) hreach,
        hn2, hm2⟩

/-- A successful emit at i restricts to a successful emit at every node
reachable from i, with a sub-list of the output. -/
theorem emit_subtree :
    ∀ (ns : List Node) (fuel : Nat) (i j : Nat) (out : List (Nat × Transform)),
      emit fuel ns i = some out → ReachFrom ns i j →
      ∃ fuel2 out2, emit fuel2 ns j = some out2 ∧ out2 ⊆ out := by
  intro ns fuel i j out hout hreach
  induction hreach with
  | refl => exact ⟨fuel, out, hout, fun x hx => hx⟩
  | step j2 k n hr hn hc ih =>
    obtain ⟨f2, out2, hout2, hsub⟩ := ih
    cases f2 with
    | zero => exact absurd hout2 (by simp [emit])
    | succ f3 =>
      rcases hn2 : ns.get? j2 with _ | n2 <;> simp only [emit, hn2] at hout2
      · exact absurd hout2 (by simp)
      rcases hh : emitHere ns n2 with _ | here <;> simp only [hh] at hout2
      · exact absurd hout2 (by simp)
      rcases hk : emitKids (fun c => emit f3 ns c) n2.children with _ | rest <;>
        simp only [hk] at hout2
      · exact absurd hout2 (by simp)
      have hout2e : here ++ rest = out2 := by
        cases hout2
        rfl
      have hnn : n2 = n := by
        rw [hn] at hn2
        exact (Option.some_inj.mp hn2).symm
      obtain ⟨r, her, hrsub⟩ := emitKids_elem n2.children rest hk k (by rw [hnn]; exact hc)
      refine ⟨f3, r, her, fun x hx => hsub ?_⟩
      rw [← hout2e]
      exact List.mem_append_right _ (hrsub hx)

/-- Every mesh-bearing node reachable from the start index contributes a
record to a successful emit's output. -/
theorem emit_complete :
    ∀ (ns : List Node) (fuel : Nat) (i j : Nat) (n : Node) (m : Nat)
      (out : List (Nat × Transform)),
      emit fuel ns i = some out → ReachFrom ns i j → ns.get? j = some n → n.mesh = some m →
      ∃ w, (m, w) ∈ out := by
  intro ns fuel i j n m out hout hreach hn hm
  obtain ⟨f2, out2, hout2, hsub⟩ := emit_subtree ns fuel i j out hout hreach
  cases f2 with
  | zero => exact absurd hout2 (by simp [emit])
  | succ f3 =>
    rcases hn2 : ns.get? j with _ | n2 <;> simp only [emit, hn2] at hout2
    · exact absurd hout2 (by simp)
    have hnn : n2 = n := by
      rw [hn] at hn2
      exact (Option.some_inj.mp hn2).symm
    rcases hh : emitHere ns n2 with _ | here <;> simp only [hh] at hout2
    · exact absurd hout2 (by simp)
    rcases hk : emitKids (fun c => emit f3 ns c) n2.children with _ | rest <;>
      simp only [hk] at hout2
    · exact absurd hout2 (by simp)
    have hout2e : here ++ rest = out2 := by
      cases hout2
      rfl
    rw [hnn] at hh
    simp only [emitHere, hm] at hh
    rcases hw : walk ns ns.length n.transform n.parent with _ | w <;> simp only [hw] at hh
    · exact absurd hh (by simp)
    have hhl : [(m, w)] = here := by
      cases hh
      rfl
    refine ⟨w, hsub ?_⟩
    rw [← hout2e, ← hhl]
    exact List.mem_append_left _ (List.mem_singleton.mpr rfl)

/-- C10: for every document passing the build pass, a completed emit pass
contains exactly the mesh records of the nodes reachable from node 0:
every emitted record comes from a reachable mesh-bearing node, every
reachable mesh-bearing node is emitted, and orphan mesh-bearing nodes
(unreachable from node 0) are silently skipped. -/
theorem emit_reachable_meshes
    (g : Gltf) (ns : List Node) (fuel : Nat) (out : List (Nat × Transform))
    (_hbuild : buildNodes g = some ns)
    (hout : emit fuel ns 0 = some out) :
    (∀ p ∈ out, ∃ j n, ReachFrom ns 0 j ∧ ns.get? j = some n ∧ n.mesh = some p.1) ∧
    (∀ j n m, ReachFrom ns 0 j → ns.get? j = some n → n.mesh = some m →
      ∃ w, (m, w) ∈ out) :=
  ⟨fun p hp => emit_sound fuel ns 0 out hout p hp,
   fun j n m hr hn hm => emit_complete ns fuel 0 j n m out hout hr hn hm⟩

/-- The default local transform produced for a node with no transform
fields. -/
noncomputable def tDefault : Transform :=
  Transform.from_translation (0, 0, 0) * Transform.from_rotation (0, 0, 0, 1) *
    Transform.from_scale (1, 1, 1)

/-- A document with a mesh on the root and a mesh on an orphan node 1
that is never listed as a child: the build pass accepts it. -/
def gOrphan : Gltf :=
  { accessors := [], bufferViews := [],
    nodes := [⟨none, none, none, none, none, some 0⟩,
              ⟨none, none, none, none, none, some 1⟩],
    scenes := [⟨[0]⟩], scene := 0 }

noncomputable def nsOrphan : List Node :=
  [⟨tDefault, some 0, none, []⟩, ⟨tDefault, some 1, none, []⟩]

/-- C10 witness: on the orphan document the emit output is exactly the
root's record; the reachable mesh 0 is emitted (mesh 1 of the orphan
node does not appear). -/
theorem emit_reachable_meshes_witness :
    ((0 : ℕ), tDefault) ∈ [((0 : ℕ), tDefault)] := by
  obtain ⟨w, hw⟩ := (emit_reachable_meshes gOrphan nsOrphan 1 [((0 : ℕ), tDefault)]
    rfl rfl).2 0 ⟨tDefault, some 0, none, []⟩ 0 (ReachFrom.refl 0) rfl rfl
  have hwe : ((0 : ℕ), w) = ((0 : ℕ), tDefault) := List.mem_singleton.mp hw
  rw [hwe] at hw
  exact hw
